import Mathlib

/-!
# Verification of the mspider retry/batch core

Shallow embedding of `src/mspider.py`: the retry-with-backoff runner
`scrape_with_retry` (lines 75-116) and the batch orchestration loop over the
category list (lines 119-138).  The opaque external call
(`SmartScraperGraph(...).run()` followed by collection and printing of the
execution info) is modelled by an oracle `attempts : Nat → AttemptOutcome α`
giving, for each 0-based loop iteration, what the body of the `try` block
does at that iteration.  Side effects (engine invocations, `print` calls,
`time.sleep` calls, file writes) are recorded in an explicit event trace.
-/

set_option autoImplicit false

namespace Mspider

variable {α : Type}

/-- What one iteration of the `try` block in `scrape_with_retry` does.

* `ok result info` — `scraper.run()` returns `result`, the execution info is
  collected and prettified to the string `info`, and the iteration reaches
  `return result`.
* `runFail e` — `scraper.run()` raises an exception whose `str(...)` is `e`.
* `postFail result e` — `scraper.run()` returns `result`, but collecting or
  printing the execution info raises an exception whose `str(...)` is `e`
  (the exception is raised inside the same `try` block, after the result is
  already available). -/
inductive AttemptOutcome (α : Type) : Type where
  | ok (result : α) (info : String)
  | runFail (err : String)
  | postFail (result : α) (err : String)
deriving DecidableEq

/-- Whether the iteration lands in the `except Exception as e` handler. -/
def AttemptOutcome.isFail : AttemptOutcome α → Bool
  | .ok _ _ => false
  | .runFail _ => true
  | .postFail _ _ => true

/-- The `str(e)` of the exception caught by the handler (junk on `ok`). -/
def AttemptOutcome.errText : AttemptOutcome α → String
  | .ok _ _ => ""
  | .runFail e => e
  | .postFail _ e => e

/-- Result of a call to `scrape_with_retry`.

* `ok r` — the function executed `return result`.
* `err e` — the function re-raised the last caught exception (`raise` on line
  116); this is the terminal failure the spec calls `ExhaustedRetries`, and it
  carries the text of the last underlying error.
* `implicitNone` — the `for` loop ran zero iterations (`max_retries = 0`) and
  the function fell off the end, returning Python's implicit `None`. -/
inductive RunResult (α : Type) : Type where
  | ok (result : α)
  | err (e : String)
  | implicitNone
deriving DecidableEq

/-- One observable side effect of the script.  The first six constructors are
emitted inside `scrape_with_retry`, the rest by the main loop. -/
inductive Event : Type where
  | invoke (attempt : Nat)
  | printExecInfo (info : String)
  | printAttemptFailed (attempt : Nat) (url : String) (err : String)
  | printWaiting (d : Nat)
  | sleep (d : Nat)
  | printExhausted (url : String) (attempts : Nat)
  | printScraping (url : String)
  | writeFile (name : String) (content : String)
  | printSaved (name : String)
  | printItemError (url : String) (err : String)
deriving DecidableEq

def Event.isInvoke : Event → Bool
  | .invoke _ => true
  | _ => false

def Event.isSleep : Event → Bool
  | .sleep _ => true
  | _ => false

/-- Whether the event is a `print` diagnostic (as opposed to an engine
invocation, a sleep, or a file write). -/
def Event.isOutput : Event → Bool
  | .invoke _ => false
  | .sleep _ => false
  | .writeFile _ _ => false
  | _ => true

/-- The body of `scrape_with_retry`'s `for attempt in range(max_retries)`
loop, lines 77-116 of `src/mspider.py`.  `attempt` is the 0-based index of the
current iteration and `remaining` the number of iterations still to run
(initially `max_retries`), so the source's retry condition
`attempt < max_retries - 1` is `remaining ≥ 2` on entry to an iteration.
`delay` is the current backoff delay; it is doubled after each wait
(`delay *= 2`, line 113). -/
def retryLoop (url : String) (attempts : Nat → AttemptOutcome α) :
    Nat → Nat → Nat → RunResult α × List Event
  | _attempt, 0, _delay => (RunResult.implicitNone, [])
  | attempt, 1, _delay =>
    match attempts attempt with
    | AttemptOutcome.ok r info =>
        (RunResult.ok r, [Event.invoke attempt, Event.printExecInfo info])
    | AttemptOutcome.runFail e =>
        (RunResult.err e,
         [Event.invoke attempt, Event.printAttemptFailed (attempt + 1) url e,
          Event.printExhausted url (attempt + 1)])
    | AttemptOutcome.postFail _ e =>
        (RunResult.err e,
         [Event.invoke attempt, Event.printAttemptFailed (attempt + 1) url e,
          Event.printExhausted url (attempt + 1)])
  | attempt, m + 2, delay =>
    match attempts attempt with
    | AttemptOutcome.ok r info =>
        (RunResult.ok r, [Event.invoke attempt, Event.printExecInfo info])
    | AttemptOutcome.runFail e =>
        let rest := retryLoop url attempts (attempt + 1) (m + 1) (delay * 2)
        (rest.1,
         Event.invoke attempt :: Event.printAttemptFailed (attempt + 1) url e
           :: Event.printWaiting delay :: Event.sleep delay :: rest.2)
    | AttemptOutcome.postFail _ e =>
        let rest := retryLoop url attempts (attempt + 1) (m + 1) (delay * 2)
        (rest.1,
         Event.invoke attempt :: Event.printAttemptFailed (attempt + 1) url e
           :: Event.printWaiting delay :: Event.sleep delay :: rest.2)

/-- Embedding of `scrape_with_retry(url, max_retries, delay)` (lines 75-116),
with the opaque external work abstracted by the oracle `attempts`. -/
def scrape_with_retry (url : String) (attempts : Nat → AttemptOutcome α)
    (max_retries : Nat) (delay : Nat) : RunResult α × List Event :=
  retryLoop url attempts 0 max_retries delay

/-- Number of engine invocations (calls of `scraper.run()`) in a trace. -/
def countInvokes (tr : List Event) : Nat :=
  tr.countP Event.isInvoke

/-- The durations of the `time.sleep` calls in a trace, in order. -/
def sleepDurations (tr : List Event) : List Nat :=
  tr.filterMap fun e =>
    match e with
    | Event.sleep d => some d
    | _ => none

/-- The events of a trace that occur strictly after its last engine
invocation (the whole trace if it contains no invocation... it always does in
the runs we consider). -/
def afterLastInvoke : List Event → List Event
  | [] => []
  | e :: rest =>
      if e.isInvoke && !(rest.any Event.isInvoke) then rest
      else afterLastInvoke rest

/-- Closed form of the events produced by `j` consecutive failing iterations
of the retry loop, each of which is followed by a wait: iteration `start + i`
invokes the engine, prints the failure diagnostic, announces and performs the
wait of the current delay, then doubles the delay. -/
def failSteps (url : String) (attempts : Nat → AttemptOutcome α) :
    Nat → Nat → Nat → List Event
  | _start, 0, _d => []
  | start, j + 1, d =>
      Event.invoke start
        :: Event.printAttemptFailed (start + 1) url ((attempts start).errText)
        :: Event.printWaiting d :: Event.sleep d
        :: failSteps url attempts (start + 1) j (d * 2)

/-- The `print` diagnostics among `failSteps`: one failure message and one
wait announcement per failed iteration. -/
def failOutputs (url : String) (attempts : Nat → AttemptOutcome α) :
    Nat → Nat → Nat → List Event
  | _start, 0, _d => []
  | start, j + 1, d =>
      Event.printAttemptFailed (start + 1) url ((attempts start).errText)
        :: Event.printWaiting d
        :: failOutputs url attempts (start + 1) j (d * 2)

/-! ## The batch orchestrator (lines 119-138) -/

/-- Python's `s.split(sep)` for a one-character separator: `acc` holds the
(reversed) characters of the chunk currently being built. -/
def splitAux (sep : Char) : List Char → List Char → List (List Char)
  | acc, [] => [acc.reverse]
  | acc, c :: rest =>
      if c = sep then acc.reverse :: splitAux sep [] rest
      else splitAux sep (c :: acc) rest

/-- Python's `s.split(sep)`. -/
def pySplit (sep : Char) (s : List Char) : List (List Char) :=
  splitAux sep [] s

/-- Embedding of `category_url.split('/')[-1]` (line 125). -/
def lastSegment (s : String) : String :=
  ⟨(pySplit '/' s.data).getLastD []⟩

/-- Modelled from the spec's words, for comparison with `lastSegment`: "the
last path segment is the substring after the final '/' (the whole identifier
when it contains no '/')". -/
def specLastSegment (s : String) : String :=
  ⟨(s.data.reverse.takeWhile (fun c => c ≠ '/')).reverse⟩

/-- The output artifact name
`f"mobilesentrix_{category_name}_{time.strftime(...)}.json"` (line 126); the
`time.strftime('%Y%m%d')` value is abstracted as the parameter `today`. -/
def mkFilename (today url : String) : String :=
  "mobilesentrix_" ++ lastSegment url ++ "_" ++ today ++ ".json"

/-- Environment of one work item: the oracle for its retry attempts, and
whether persisting its output raises (`some e` models an exception with text
`e` raised by `open`/`write` on lines 128-129). -/
structure ItemEnv (α : Type) : Type where
  attempts : Nat → AttemptOutcome α
  persistError : Option String

/-- The body of the main loop (lines 120-138) for one `category_url`.
Returns the artifact written for this item, if any, as a
`(filename, content)` pair, together with the item's event trace.  `strOf`
models Python's `str(...)` on the engine's result object (line 129).  The
whole body is inside `try ... except ... continue`, so any exception —
exhausted retries or a persistence failure — ends in the single
`print(f"Error scraping ...")` handler, and in that case the trailing
`time.sleep(5)` (line 134) is *not* executed, because it sits inside the
`try` block after the save. -/
def processItem (today : String) (strOf : α → String) (env : ItemEnv α)
    (url : String) : Option (String × String) × List Event :=
  let run := scrape_with_retry url env.attempts 3 5
  match run.1 with
  | RunResult.err e =>
      (none, Event.printScraping url :: run.2 ++ [Event.printItemError url e])
  | RunResult.ok r =>
      match env.persistError with
      | some pe =>
          (none,
           Event.printScraping url :: run.2 ++ [Event.printItemError url pe])
      | none =>
          (some (mkFilename today url, strOf r),
           Event.printScraping url :: run.2
             ++ [Event.writeFile (mkFilename today url) (strOf r),
                 Event.printSaved (mkFilename today url), Event.sleep 5])
  | RunResult.implicitNone =>
      match env.persistError with
      | some pe =>
          (none,
           Event.printScraping url :: run.2 ++ [Event.printItemError url pe])
      | none =>
          (some (mkFilename today url, "None"),
           Event.printScraping url :: run.2
             ++ [Event.writeFile (mkFilename today url) "None",
                 Event.printSaved (mkFilename today url), Event.sleep 5])

/-- The main loop `for category_url in categories` (lines 119-138): process
the items in order, collecting the artifacts written and the concatenated
event trace.  It is a total function: no exception escapes an item's
`try`/`except`, so the batch never aborts early. -/
def runBatch (today : String) (strOf : α → String)
    (envs : String → ItemEnv α) : List String → List (String × String) × List Event
  | [] => ([], [])
  | url :: rest =>
      let item := processItem today strOf (envs url) url
      let r := runBatch today strOf envs rest
      (item.1.toList ++ r.1, item.2 ++ r.2)

/-- Whether processing the item ends with an output artifact (item neither
exhausted its retries nor failed to persist). -/
def producesArtifact (today : String) (strOf : α → String) (env : ItemEnv α)
    (url : String) : Bool :=
  ((processItem today strOf env url).1).isSome

/-- The work items announced (in order) by `print(f"\nScraping category:
...")` in a trace: one per item the orchestrator started processing. -/
def scrapedItems (tr : List Event) : List String :=
  tr.filterMap fun e =>
    match e with
    | Event.printScraping u => some u
    | _ => none

/-! ## Concrete instances used in the witnesses and counterexamples -/

/-- An oracle whose every attempt fails during `scraper.run()`. -/
def failOracle : Nat → AttemptOutcome Nat :=
  fun _ => AttemptOutcome.runFail "boom"

/-- An oracle whose every attempt succeeds. -/
def okOracle : Nat → AttemptOutcome Nat :=
  fun _ => AttemptOutcome.ok 7 "exec"

/-- Fails once, then succeeds. -/
def failThenOkOracle : Nat → AttemptOutcome Nat :=
  fun i => if i = 0 then AttemptOutcome.runFail "e1" else AttemptOutcome.ok 7 "exec"

/-- First attempt: `scraper.run()` succeeds but the execution-info step
raises; later attempts fail outright. -/
def postFailOracle : Nat → AttemptOutcome Nat :=
  fun i =>
    if i = 0 then AttemptOutcome.postFail 9 "post" else AttemptOutcome.runFail "boom"

/-- A trivial `str(...)` model for witnesses. -/
def constStr : Nat → String :=
  fun _ => "payload"

/-- Item environment that always succeeds and persists. -/
def okEnv : ItemEnv Nat :=
  ⟨okOracle, none⟩

/-- Item environment that exhausts its retries. -/
def failEnv : ItemEnv Nat :=
  ⟨failOracle, none⟩

/-- Every item fails terminally. -/
def failEnvs : String → ItemEnv Nat :=
  fun _ => failEnv

/-- The "Tablets" item exhausts its retries, the others succeed. -/
def mixedEnvs : String → ItemEnv Nat :=
  fun u => if u = "Tablets" then failEnv else okEnv

end Mspider

namespace Mspider

/-! ## Lemmas about the retry loop -/

/-- Closed form of a run in which every attempt fails: with `n + 1`
iterations available, the loop performs `n` failing iterations with waits,
then a final failing iteration with no wait, and re-raises the last error. -/
theorem retryLoop_all_fail {α : Type} (url : String)
    (attempts : Nat → AttemptOutcome α)
    (hAF : ∀ i, (attempts i).isFail = true) :
    ∀ (n start d : Nat),
      retryLoop url attempts start (n + 1) d
        = (RunResult.err ((attempts (start + n)).errText),
           failSteps url attempts start n d
             ++ [Event.invoke (start + n),
                 Event.printAttemptFailed (start + n + 1) url
                   ((attempts (start + n)).errText),
                 Event.printExhausted url (start + n + 1)]) := by
  intro n
  induction n with
  | zero =>
    intro start d
    cases h : attempts start with
    | ok r info =>
      have := hAF start
      rw [h] at this
      simp [AttemptOutcome.isFail] at this
    | runFail e =>
      simp [retryLoop, failSteps, h, AttemptOutcome.errText]
    | postFail r e =>
      simp [retryLoop, failSteps, h, AttemptOutcome.errText]
  | succ n ih =>
    intro start d
    have harith : start + 1 + n = start + (n + 1) := by omega
    cases h : attempts start with
    | ok r info =>
      have := hAF start
      rw [h] at this
      simp [AttemptOutcome.isFail] at this
    | runFail e =>
      show retryLoop url attempts start (n + 2) d = _
      rw [retryLoop, h]
      rw [ih (start + 1) (d * 2), harith]
      simp [failSteps, h, AttemptOutcome.errText]
    | postFail r e =>
      show retryLoop url attempts start (n + 2) d = _
      rw [retryLoop, h]
      rw [ih (start + 1) (d * 2), harith]
      simp [failSteps, h, AttemptOutcome.errText]

theorem countInvokes_failSteps {α : Type} (url : String)
    (attempts : Nat → AttemptOutcome α) :
    ∀ (j start d : Nat), countInvokes (failSteps url attempts start j d) = j := by
  intro j
  induction j with
  | zero => intro start d; simp [failSteps, countInvokes]
  | succ j ih =>
    intro start d
    simp [failSteps, countInvokes, List.countP_cons, Event.isInvoke]
    have := ih (start + 1) (d * 2)
    simp [countInvokes] at this
    omega

theorem sleepDurations_failSteps {α : Type} (url : String)
    (attempts : Nat → AttemptOutcome α) :
    ∀ (j start d : Nat),
      sleepDurations (failSteps url attempts start j d)
        = (List.range j).map (fun i => d * 2 ^ i) := by
  intro j
  induction j with
  | zero => intro start d; simp [failSteps, sleepDurations]
  | succ j ih =>
    intro start d
    have hfun : ∀ i : Nat, d * 2 ^ (i + 1) = d * 2 * 2 ^ i := by
      intro i; ring
    rw [List.range_succ_eq_map]
    simp only [failSteps, sleepDurations, List.filterMap_cons, List.map_cons,
      List.map_map]
    rw [show ∀ x : List Nat, (fun i => d * 2 ^ i) 0 :: x = d :: x by
      intro x; norm_num]
    have := ih (start + 1) (d * 2)
    simp only [sleepDurations] at this
    rw [this]
    congr 1
    rw [List.map_congr_left]
    intro i _
    simp [hfun i]

theorem afterLastInvoke_append_invoke (l₁ l₂ : List Event) (k : Nat)
    (h : l₂.any Event.isInvoke = false) :
    afterLastInvoke (l₁ ++ Event.invoke k :: l₂) = l₂ := by
  induction l₁ with
  | nil => simp [afterLastInvoke, Event.isInvoke, h]
  | cons e l₁ ih =>
    have hany : ((l₁ ++ Event.invoke k :: l₂).any Event.isInvoke) = true := by
      simp [List.any_append, Event.isInvoke]
    rw [List.cons_append, afterLastInvoke, hany]
    simpa using ih

end Mspider

namespace Mspider

/-! ## C1 and C2: exhausted retries -/

/-- C1: for every `max_attempts = n ≥ 1`, if the underlying scrape operation
raises an error on every attempt, `scrape_with_retry` performs exactly `n`
attempts (engine invocations), performs no wait after the final attempt, and
then fails by re-raising the last underlying error (the terminal
`ExhaustedRetries` failure, which propagates to the caller). -/
theorem scrape_all_fail_spec {α : Type} (url : String)
    (attempts : Nat → AttemptOutcome α) (n d : Nat) (hn : 1 ≤ n)
    (hAF : ∀ i, (attempts i).isFail = true) :
    (scrape_with_retry url attempts n d).1
        = RunResult.err ((attempts (n - 1)).errText)
    ∧ countInvokes (scrape_with_retry url attempts n d).2 = n
    ∧ (afterLastInvoke (scrape_with_retry url attempts n d).2).countP
        Event.isSleep = 0 := by
  obtain ⟨m, rfl⟩ : ∃ m, n = m + 1 := ⟨n - 1, by omega⟩
  have hcf := retryLoop_all_fail url attempts hAF m 0 d
  rw [scrape_with_retry] at *
  refine ⟨?_, ?_, ?_⟩
  · rw [hcf]; simp
  · rw [hcf]
    have hsteps := countInvokes_failSteps url attempts m 0 d
    simp only [countInvokes] at hsteps ⊢
    simp [List.countP_append, List.countP_cons, Event.isInvoke, hsteps]
  · rw [hcf, afterLastInvoke_append_invoke]
    · simp [List.countP_cons, Event.isSleep]
    · simp [Event.isInvoke]

/-- Witness for C1 at `n = 2`, `d = 5` with an oracle that always fails. -/
theorem scrape_all_fail_spec_witness :
    (scrape_with_retry "u" failOracle 2 5).1 = RunResult.err "boom"
    ∧ countInvokes (scrape_with_retry "u" failOracle 2 5).2 = 2
    ∧ (afterLastInvoke (scrape_with_retry "u" failOracle 2 5).2).countP
        Event.isSleep = 0 :=
  scrape_all_fail_spec "u" failOracle 2 5 (by omega) (fun _ => rfl)

/-- C2: for every `n ≥ 2`, when the operation keeps failing, the wait
durations performed between attempts are exactly the geometric sequence
`d, d*2, d*4, ...` for the first `n - 1` failures (doubling each time, with
no cap on growth), and no wait occurs after attempt `n`. -/
theorem scrape_backoff_spec {α : Type} (url : String)
    (attempts : Nat → AttemptOutcome α) (n d : Nat) (hn : 2 ≤ n)
    (hAF : ∀ i, (attempts i).isFail = true) :
    sleepDurations (scrape_with_retry url attempts n d).2
        = (List.range (n - 1)).map (fun i => d * 2 ^ i)
    ∧ (afterLastInvoke (scrape_with_retry url attempts n d).2).countP
        Event.isSleep = 0 := by
  obtain ⟨m, rfl⟩ : ∃ m, n = m + 1 := ⟨n - 1, by omega⟩
  have hcf := retryLoop_all_fail url attempts hAF m 0 d
  rw [scrape_with_retry] at *
  refine ⟨?_, ?_⟩
  · rw [hcf]
    have hsteps := sleepDurations_failSteps url attempts m 0 d
    simp only [sleepDurations] at hsteps ⊢
    simp [List.filterMap_append, hsteps]
  · rw [hcf, afterLastInvoke_append_invoke]
    · simp [List.countP_cons, Event.isSleep]
    · simp [Event.isInvoke]

/-- Witness for C2 at `n = 3`, `d = 5`: waits are `[5, 10]`. -/
theorem scrape_backoff_spec_witness :
    sleepDurations (scrape_with_retry "u" failOracle 3 5).2
        = (List.range 2).map (fun i => 5 * 2 ^ i)
    ∧ (afterLastInvoke (scrape_with_retry "u" failOracle 3 5).2).countP
        Event.isSleep = 0 :=
  scrape_backoff_spec "u" failOracle 3 5 (by omega) (fun _ => rfl)

end Mspider

namespace Mspider

/-- Closed form of a run whose first success is at 0-based iteration
`start + j`, reached after `j` failing iterations: the loop returns that
result at once, after emitting the failure steps and one final invocation
followed by the execution-info print. -/
theorem retryLoop_success {α : Type} (url : String)
    (attempts : Nat → AttemptOutcome α) (r : α) (info : String) :
    ∀ (j start rem d : Nat), j < rem →
      (∀ i, i < j → (attempts (start + i)).isFail = true) →
      attempts (start + j) = AttemptOutcome.ok r info →
      retryLoop url attempts start rem d
        = (RunResult.ok r,
           failSteps url attempts start j d
             ++ [Event.invoke (start + j), Event.printExecInfo info]) := by
  intro j
  induction j with
  | zero =>
    intro start rem d hlt hfail hok
    rw [Nat.add_zero] at hok
    cases rem with
    | zero => omega
    | succ m =>
      cases m with
      | zero => rw [retryLoop, hok]; simp [failSteps]
      | succ k => rw [retryLoop, hok]; simp [failSteps]
  | succ j ih =>
    intro start rem d hlt hfail hok
    have h0 : (attempts start).isFail = true := by
      have := hfail 0 (by omega)
      rwa [Nat.add_zero] at this
    have harith : start + 1 + j = start + (j + 1) := by omega
    cases rem with
    | zero => omega
    | succ m =>
      cases m with
      | zero => omega
      | succ k =>
        have hrec := ih (start + 1) (k + 1) (d * 2) (by omega)
          (fun i hi => by
            have := hfail (i + 1) (by omega)
            rwa [show start + (i + 1) = start + 1 + i by omega] at this)
          (by rwa [harith])
        cases hA : attempts start with
        | ok r' info' => rw [hA] at h0; simp [AttemptOutcome.isFail] at h0
        | runFail e =>
          rw [retryLoop, hA, hrec, harith]
          simp [failSteps, hA, AttemptOutcome.errText]
        | postFail r'' e =>
          rw [retryLoop, hA, hrec, harith]
          simp [failSteps, hA, AttemptOutcome.errText]

theorem filter_isOutput_failSteps {α : Type} (url : String)
    (attempts : Nat → AttemptOutcome α) :
    ∀ (j start d : Nat),
      (failSteps url attempts start j d).filter Event.isOutput
        = failOutputs url attempts start j d := by
  intro j
  induction j with
  | zero => intro start d; simp [failSteps, failOutputs]
  | succ j ih =>
    intro start d
    simp [failSteps, failOutputs, List.filter_cons, Event.isOutput, ih]

/-! ## C3 and C4: early return on success -/

/-- C3: if the underlying operation first succeeds on 0-based iteration `j`
(1-based attempt `k = j + 1 ≤ n`), `scrape_with_retry` returns that attempt's
result immediately: the whole trace is the `j` failing steps followed by the
final invocation, so it performs `j + 1 = k` attempts (none of `k+1..n`) and
exactly `j = k - 1` waits (no further waits). -/
theorem scrape_success_spec {α : Type} (url : String)
    (attempts : Nat → AttemptOutcome α) (j n d : Nat) (r : α) (info : String)
    (hjn : j < n)
    (hfail : ∀ i, i < j → (attempts i).isFail = true)
    (hok : attempts j = AttemptOutcome.ok r info) :
    scrape_with_retry url attempts n d
        = (RunResult.ok r,
           failSteps url attempts 0 j d
             ++ [Event.invoke j, Event.printExecInfo info])
    ∧ countInvokes (scrape_with_retry url attempts n d).2 = j + 1
    ∧ (sleepDurations (scrape_with_retry url attempts n d).2).length = j := by
  have hcf := retryLoop_success url attempts r info j 0 n d hjn
    (fun i hi => by simpa using hfail i hi) (by simpa using hok)
  simp only [Nat.zero_add] at hcf
  rw [scrape_with_retry] at *
  refine ⟨hcf, ?_, ?_⟩
  · rw [hcf]
    have hsteps := countInvokes_failSteps url attempts j 0 d
    simp only [countInvokes] at hsteps ⊢
    simp [List.countP_append, List.countP_cons, Event.isInvoke, hsteps]
  · rw [hcf]
    have hsteps := sleepDurations_failSteps url attempts j 0 d
    simp only [sleepDurations] at hsteps ⊢
    simp [List.filterMap_append, hsteps]

/-- Witness for C3: fails once, then succeeds on attempt 2 of 3. -/
theorem scrape_success_spec_witness :
    scrape_with_retry "u" failThenOkOracle 3 5
        = (RunResult.ok 7,
           failSteps "u" failThenOkOracle 0 1 5
             ++ [Event.invoke 1, Event.printExecInfo "exec"])
    ∧ countInvokes (scrape_with_retry "u" failThenOkOracle 3 5).2 = 2
    ∧ (sleepDurations (scrape_with_retry "u" failThenOkOracle 3 5).2).length
        = 1 :=
  scrape_success_spec "u" failThenOkOracle 1 3 5 7 "exec" (by omega)
    (fun i hi => by
      have : i = 0 := by omega
      subst this; rfl)
    rfl

/-- C4 counterexample: the claim says diagnostic output is never emitted on
the success path, but a run that succeeds on its very first attempt (no
failed attempts, no waits) still emits a `print` — the prettified execution
info of the successful attempt (line 103 of the source). -/
theorem success_output_cex :
    (scrape_with_retry "u" okOracle 3 5).1 = RunResult.ok 7
    ∧ Event.printExecInfo "exec" ∈ (scrape_with_retry "u" okOracle 3 5).2
    ∧ Event.isOutput (Event.printExecInfo "exec") = true := by
  refine ⟨rfl, ?_, rfl⟩
  show Event.printExecInfo "exec" ∈ [Event.invoke 0, Event.printExecInfo "exec"]
  simp

/-- C4 (amended): the `print` diagnostics of a successful run are exactly one
failure message and one wait announcement per failed attempt, followed by one
execution-info message emitted by the successful attempt itself; apart from
that execution-info print (and returning the result), the success path
performs no side effects. -/
theorem scrape_output_events_spec {α : Type} (url : String)
    (attempts : Nat → AttemptOutcome α) (j n d : Nat) (r : α) (info : String)
    (hjn : j < n)
    (hfail : ∀ i, i < j → (attempts i).isFail = true)
    (hok : attempts j = AttemptOutcome.ok r info) :
    ((scrape_with_retry url attempts n d).2).filter Event.isOutput
      = failOutputs url attempts 0 j d ++ [Event.printExecInfo info] := by
  have hcf := retryLoop_success url attempts r info j 0 n d hjn
    (fun i hi => by simpa using hfail i hi) (by simpa using hok)
  simp only [Nat.zero_add] at hcf
  rw [scrape_with_retry, hcf]
  simp [List.filter_append, filter_isOutput_failSteps, Event.isOutput]

/-- Witness for C4's amended claim: one failure, then success. -/
theorem scrape_output_events_spec_witness :
    ((scrape_with_retry "u" failThenOkOracle 3 5).2).filter Event.isOutput
      = failOutputs "u" failThenOkOracle 0 1 5
          ++ [Event.printExecInfo "exec"] :=
  scrape_output_events_spec "u" failThenOkOracle 1 3 5 7 "exec" (by omega)
    (fun i hi => by
      have : i = 0 := by omega
      subst this; rfl)
    rfl

end Mspider

namespace Mspider

/-- Whatever the oracle does, the `i`-th backoff wait of a retry run (if it
happens at all) lasts `delay * 2 ^ i` seconds: the delay starts at `delay`
and is doubled after every wait. -/
theorem sleepDurations_retryLoop_geometric {α : Type} (url : String)
    (attempts : Nat → AttemptOutcome α) :
    ∀ (n start d j v : Nat),
      (sleepDurations (retryLoop url attempts start n d).2).get? j = some v →
      v = d * 2 ^ j := by
  intro n
  induction n with
  | zero =>
    intro start d j v h
    simp [retryLoop, sleepDurations] at h
  | succ m ih =>
    intro start d j v h
    cases m with
    | zero =>
      cases hA : attempts start <;>
        simp [retryLoop, hA, sleepDurations] at h
    | succ k =>
      cases hA : attempts start with
      | ok r info => simp [retryLoop, hA, sleepDurations] at h
      | runFail e =>
        simp only [retryLoop, hA, sleepDurations, List.filterMap_cons] at h
        cases j with
        | zero =>
          simp at h
          simp [pow_zero, ← h]
        | succ jj =>
          simp only [List.get?] at h
          have := ih (start + 1) (d * 2) jj v (by
            simpa [sleepDurations] using h)
          rw [this, pow_succ]
          ring
      | postFail r' e =>
        simp only [retryLoop, hA, sleepDurations, List.filterMap_cons] at h
        cases j with
        | zero =>
          simp at h
          simp [pow_zero, ← h]
        | succ jj =>
          simp only [List.get?] at h
          have := ih (start + 1) (d * 2) jj v (by
            simpa [sleepDurations] using h)
          rw [this, pow_succ]
          ring

/-- The retry loop started at iteration `start` only consults the oracle at
indices `≥ start`. -/
theorem retryLoop_congr {α : Type} (url : String)
    (attempts attempts' : Nat → AttemptOutcome α) :
    ∀ (n start d : Nat), (∀ i, start ≤ i → attempts i = attempts' i) →
      retryLoop url attempts start n d = retryLoop url attempts' start n d := by
  intro n
  induction n with
  | zero => intro start d _; rfl
  | succ m ih =>
    intro start d h
    have hs : attempts start = attempts' start := h start (Nat.le_refl _)
    cases m with
    | zero => rw [retryLoop, retryLoop, hs]
    | succ k =>
      have hrec := ih (start + 1) (d * 2) (fun i hi => h i (by omega))
      rw [retryLoop, retryLoop, hs, hrec]

/-! ## C10: post-run failures count as attempt failures -/

/-- C10: an error raised after `scraper.run()` has returned successfully but
before the function returns (while collecting or printing the execution info,
lines 102-103 — still inside the `try` block) is treated as a failure of that
whole attempt: the run behaves exactly as if the attempt had failed outright
with that error, so the already-obtained result is discarded, a single
remaining attempt means the error is re-raised, and when attempts remain the
entire scrape is re-run from scratch (from iteration 1, after the usual wait
and delay doubling). -/
theorem post_run_failure_spec {α : Type} (url : String)
    (attempts : Nat → AttemptOutcome α) (r : α) (e : String)
    (h : attempts 0 = AttemptOutcome.postFail r e) :
    (∀ n d, scrape_with_retry url attempts n d
        = scrape_with_retry url
            (fun i => if i = 0 then AttemptOutcome.runFail e else attempts i)
            n d)
    ∧ (∀ d, (scrape_with_retry url attempts 1 d).1 = RunResult.err e)
    ∧ (∀ n d, scrape_with_retry url attempts (n + 2) d
        = ((retryLoop url attempts 1 (n + 1) (d * 2)).1,
           Event.invoke 0 :: Event.printAttemptFailed 1 url e
             :: Event.printWaiting d :: Event.sleep d
             :: (retryLoop url attempts 1 (n + 1) (d * 2)).2)) := by
  refine ⟨?_, ?_, ?_⟩
  · intro n d
    rw [scrape_with_retry, scrape_with_retry]
    cases n with
    | zero => rfl
    | succ m =>
      cases m with
      | zero => rw [retryLoop, retryLoop, h]; simp
      | succ k =>
        have hcongr := retryLoop_congr url attempts
          (fun i => if i = 0 then AttemptOutcome.runFail e else attempts i)
          (k + 1) 1 (d * 2)
          (fun i hi => (if_neg (by omega)).symm)
        rw [retryLoop, retryLoop, h, hcongr]
        simp
  · intro d
    rw [scrape_with_retry, retryLoop, h]
  · intro n d
    rw [scrape_with_retry, retryLoop, h]

/-- Witness for C10: the first attempt's `run()` succeeds with result 9 but
the execution-info step raises; the attempt counts as failed. -/
theorem post_run_failure_spec_witness :
    scrape_with_retry "u" postFailOracle 2 5
        = scrape_with_retry "u"
            (fun i =>
              if i = 0 then AttemptOutcome.runFail "post" else postFailOracle i)
            2 5
    ∧ (scrape_with_retry "u" postFailOracle 1 5).1 = RunResult.err "post" :=
  ⟨(post_run_failure_spec "u" postFailOracle 9 "post" rfl).1 2 5,
   (post_run_failure_spec "u" postFailOracle 9 "post" rfl).2.1 5⟩

end Mspider

namespace Mspider

/-! ## Lemmas about the batch orchestrator -/

theorem scrapedItems_retryLoop {α : Type} (url : String)
    (attempts : Nat → AttemptOutcome α) :
    ∀ (n start d : Nat), scrapedItems (retryLoop url attempts start n d).2 = [] := by
  intro n
  induction n with
  | zero => intro start d; simp [retryLoop, scrapedItems]
  | succ m ih =>
    intro start d
    cases m with
    | zero => cases hA : attempts start <;> simp [retryLoop, hA, scrapedItems]
    | succ k =>
      cases hA : attempts start with
      | ok r info => simp [retryLoop, hA, scrapedItems]
      | runFail e =>
        have := ih (start + 1) (d * 2)
        simp only [scrapedItems] at this ⊢
        simp [retryLoop, hA, this]
      | postFail r' e =>
        have := ih (start + 1) (d * 2)
        simp only [scrapedItems] at this ⊢
        simp [retryLoop, hA, this]

theorem scrapedItems_scrape {α : Type} (url : String)
    (attempts : Nat → AttemptOutcome α) (n d : Nat) :
    scrapedItems (scrape_with_retry url attempts n d).2 = [] := by
  rw [scrape_with_retry]
  exact scrapedItems_retryLoop url attempts n 0 d

/-- Each item's trace announces exactly its own identifier. -/
theorem scrapedItems_processItem {α : Type} (today : String)
    (strOf : α → String) (env : ItemEnv α) (url : String) :
    scrapedItems (processItem today strOf env url).2 = [url] := by
  have hretry := scrapedItems_scrape url env.attempts 3 5
  simp only [scrapedItems] at hretry
  simp only [processItem]
  cases hr : (scrape_with_retry url env.attempts 3 5).1 with
  | ok r =>
    cases hp : env.persistError <;>
      simp only [scrapedItems] <;>
      simp [hr, hp, List.filterMap_append, hretry]
  | err e =>
    simp only [scrapedItems]
    simp [hr, List.filterMap_append, hretry]
  | implicitNone =>
    cases hp : env.persistError <;>
      simp only [scrapedItems] <;>
      simp [hr, hp, List.filterMap_append, hretry]

theorem runBatch_trace {α : Type} (today : String) (strOf : α → String)
    (envs : String → ItemEnv α) :
    ∀ cats : List String,
      (runBatch today strOf envs cats).2
        = (cats.map fun c => (processItem today strOf (envs c) c).2).flatten := by
  intro cats
  induction cats with
  | nil => simp [runBatch]
  | cons c rest ih => simp [runBatch, ih]

theorem runBatch_artifacts {α : Type} (today : String) (strOf : α → String)
    (envs : String → ItemEnv α) :
    ∀ cats : List String,
      (runBatch today strOf envs cats).1
        = cats.filterMap fun c => (processItem today strOf (envs c) c).1 := by
  intro cats
  induction cats with
  | nil => simp [runBatch]
  | cons c rest ih =>
    cases hp : (processItem today strOf (envs c) c).1 <;>
      simp [runBatch, List.filterMap_cons, hp, ih]

theorem length_filterMap_countP {β γ : Type} (f : β → Option γ) :
    ∀ l : List β, (l.filterMap f).length = l.countP fun b => (f b).isSome := by
  intro l
  induction l with
  | nil => simp
  | cons a l ih =>
    cases hfa : f a <;> simp [List.filterMap_cons, hfa, List.countP_cons, ih]

theorem scrapedItems_runBatch {α : Type} (today : String) (strOf : α → String)
    (envs : String → ItemEnv α) :
    ∀ cats : List String, scrapedItems (runBatch today strOf envs cats).2 = cats := by
  intro cats
  induction cats with
  | nil => simp [runBatch, scrapedItems]
  | cons c rest ih =>
    have hone := scrapedItems_processItem today strOf (envs c) c
    simp only [scrapedItems] at hone ih ⊢
    simp [runBatch, List.filterMap_append, hone, ih]

end Mspider

namespace Mspider

theorem getLast?_cons_append1 {β : Type} (x : β) (l : List β) (a : β) :
    (x :: l ++ [a]).getLast? = some a := by
  rw [show x :: l ++ [a] = (x :: l) ++ [a] from rfl]
  exact List.getLast?_concat _

theorem getLast?_cons_append3 {β : Type} (x a b c : β) (l : List β) :
    (x :: l ++ [a, b, c]).getLast? = some c := by
  have h : x :: l ++ [a, b, c] = (x :: (l ++ [a, b])) ++ [c] := by simp
  rw [h]
  exact List.getLast?_concat _

/-! ## C5: failure isolation in the batch -/

/-- C5: in a batch where some item fails terminally (exhausted retries or a
persistence error), every item — the failing one included — is still
attempted exactly once and in order, each successful item contributes exactly
its artifact, and the artifact count equals the number of
non-terminally-failing items.  `runBatch` is a total function, so no
exception escapes the orchestrator loop and the batch never aborts early. -/
theorem batch_isolation_spec {α : Type} (today : String) (strOf : α → String)
    (envs : String → ItemEnv α) (cats : List String)
    (hfail : ∃ c ∈ cats, producesArtifact today strOf (envs c) c = false) :
    scrapedItems (runBatch today strOf envs cats).2 = cats
    ∧ (runBatch today strOf envs cats).1
        = cats.filterMap (fun c => (processItem today strOf (envs c) c).1)
    ∧ (runBatch today strOf envs cats).1.length
        = cats.countP (fun c => producesArtifact today strOf (envs c) c) := by
  refine ⟨scrapedItems_runBatch today strOf envs cats,
    runBatch_artifacts today strOf envs cats, ?_⟩
  rw [runBatch_artifacts]
  simpa [producesArtifact] using
    length_filterMap_countP (fun c => (processItem today strOf (envs c) c).1) cats

/-- Witness for C5: the spec's concrete scenario — "Tablets" exhausts its
retries, the other two categories succeed, two artifacts result. -/
theorem batch_isolation_spec_witness :
    scrapedItems
        (runBatch "20260101" constStr mixedEnvs
          ["Cell Phones", "Tablets", "Computers"]).2
      = ["Cell Phones", "Tablets", "Computers"]
    ∧ (runBatch "20260101" constStr mixedEnvs
          ["Cell Phones", "Tablets", "Computers"]).1
        = (["Cell Phones", "Tablets", "Computers"]).filterMap
            (fun c => (processItem "20260101" constStr (mixedEnvs c) c).1)
    ∧ (runBatch "20260101" constStr mixedEnvs
          ["Cell Phones", "Tablets", "Computers"]).1.length
        = (["Cell Phones", "Tablets", "Computers"]).countP
            (fun c => producesArtifact "20260101" constStr (mixedEnvs c) c) :=
  batch_isolation_spec "20260101" constStr mixedEnvs
    ["Cell Phones", "Tablets", "Computers"] ⟨"Tablets", by simp, by decide⟩

/-! ## C6: the inter-item delay -/

/-- C6 counterexample: the claim says a fixed inter-item delay is applied
after every work item regardless of outcome, but `time.sleep(5)` on line 134
sits inside the `try` block after the save, so a terminally failing item
jumps to the `except` handler and gets no inter-item delay at all: the trace
of a one-item batch whose item exhausts its retries ends with the error
print, with no sleep after it. -/
theorem inter_item_delay_cex :
    (runBatch "20260101" constStr failEnvs ["Tablets"]).2
      = [Event.printScraping "Tablets", Event.invoke 0,
         Event.printAttemptFailed 1 "Tablets" "boom", Event.printWaiting 5,
         Event.sleep 5, Event.invoke 1,
         Event.printAttemptFailed 2 "Tablets" "boom", Event.printWaiting 10,
         Event.sleep 10, Event.invoke 2,
         Event.printAttemptFailed 3 "Tablets" "boom",
         Event.printExhausted "Tablets" 3,
         Event.printItemError "Tablets" "boom"]
    ∧ (runBatch "20260101" constStr failEnvs ["Tablets"]).2.getLast?
        = some (Event.printItemError "Tablets" "boom") :=
  ⟨rfl, rfl⟩

/-- C6 (amended): the fixed inter-item delay is applied exactly after the
items that are processed successfully (scraped and persisted, i.e. those that
produce an artifact); after a terminally failing item the orchestrator
proceeds immediately, its trace ending with the error print instead. -/
theorem inter_item_delay_spec {α : Type} (today : String) (strOf : α → String)
    (env : ItemEnv α) (url : String) :
    producesArtifact today strOf env url = true
      ↔ (processItem today strOf env url).2.getLast? = some (Event.sleep 5) := by
  simp only [producesArtifact, processItem]
  cases hr : (scrape_with_retry url env.attempts 3 5).1 with
  | ok r =>
    cases hp : env.persistError with
    | none => rw [getLast?_cons_append3]; simp
    | some pe => rw [getLast?_cons_append1]; simp
  | err e => rw [getLast?_cons_append1]; simp
  | implicitNone =>
    cases hp : env.persistError with
    | none => rw [getLast?_cons_append3]; simp
    | some pe => rw [getLast?_cons_append1]; simp

/-- Witness for C6's amended claim, at a succeeding and a failing item. -/
theorem inter_item_delay_spec_witness :
    (producesArtifact "20260101" constStr okEnv "u" = true
      ↔ (processItem "20260101" constStr okEnv "u").2.getLast?
          = some (Event.sleep 5))
    ∧ (producesArtifact "20260101" constStr failEnv "u" = true
      ↔ (processItem "20260101" constStr failEnv "u").2.getLast?
          = some (Event.sleep 5)) :=
  ⟨inter_item_delay_spec "20260101" constStr okEnv "u",
   inter_item_delay_spec "20260101" constStr failEnv "u"⟩

/-! ## C8: content persisted verbatim -/

/-- C8: when the engine returns `r` and persistence does not fail, the
content persisted for the item is exactly `strOf r` — the raw `str(...)`
string form of the result object (line 129: `f.write(str(result))`), written
verbatim, not a re-encoded canonical JSON document (no JSON encoder appears
anywhere in the orchestrator; the content is the image of the result under
the opaque `str` function alone). -/
theorem artifact_content_spec {α : Type} (today : String) (strOf : α → String)
    (env : ItemEnv α) (url : String) (r : α)
    (hrun : (scrape_with_retry url env.attempts 3 5).1 = RunResult.ok r)
    (hp : env.persistError = none) :
    (processItem today strOf env url).1
      = some (mkFilename today url, strOf r) := by
  simp only [processItem]
  rw [hrun, hp]

/-- Witness for C8. -/
theorem artifact_content_spec_witness :
    (processItem "20260101" constStr okEnv "u").1
      = some (mkFilename "20260101" "u", constStr 7) :=
  artifact_content_spec "20260101" constStr okEnv "u" 7 rfl rfl

/-! ## C9: backoff state does not leak between items -/

/-- C9: the batch trace is the concatenation of the per-item traces, and
every item's retry run is `scrape_with_retry` called with the constant
initial delay 5 (and 3 attempts), so within each item the `j`-th backoff wait
is `5 * 2 ^ j` seconds — the sequence restarts at 5 for every item,
independent of how many failures or delay doublings earlier items saw. -/
theorem backoff_reset_spec {α : Type} (today : String) (strOf : α → String)
    (envs : String → ItemEnv α) (cats : List String) :
    (runBatch today strOf envs cats).2
        = (cats.map fun c => (processItem today strOf (envs c) c).2).flatten
    ∧ ∀ c, c ∈ cats → ∀ j v,
        (sleepDurations (scrape_with_retry c (envs c).attempts 3 5).2).get? j
            = some v
        → v = 5 * 2 ^ j :=
  ⟨runBatch_trace today strOf envs cats,
   fun c _ j v h =>
     sleepDurations_retryLoop_geometric c (envs c).attempts 3 0 5 j v
       (by rwa [scrape_with_retry] at h)⟩

/-- Witness for C9: in a batch, the first backoff wait of the item is 5 s. -/
theorem backoff_reset_spec_witness :
    (runBatch "20260101" constStr failEnvs ["Tablets"]).2
        = ((["Tablets"]).map
            fun c => (processItem "20260101" constStr (failEnvs c) c).2).flatten
    ∧ (5 : Nat) = 5 * 2 ^ 0 :=
  ⟨(backoff_reset_spec "20260101" constStr failEnvs ["Tablets"]).1,
   (backoff_reset_spec "20260101" constStr failEnvs ["Tablets"]).2 "Tablets"
     (by simp) 0 5 rfl⟩

end Mspider

namespace Mspider

/-! ## C7: the derived artifact name -/

theorem takeWhile_append_of_mem_not {β : Type} (p : β → Bool) :
    ∀ (l₁ l₂ : List β), (∃ x ∈ l₁, p x = false) →
      (l₁ ++ l₂).takeWhile p = l₁.takeWhile p := by
  intro l₁
  induction l₁ with
  | nil =>
    intro l₂ h
    obtain ⟨x, hx, _⟩ := h
    simp at hx
  | cons a l₁ ih =>
    intro l₂ h
    cases hp : p a with
    | false => simp [List.takeWhile_cons, hp]
    | true =>
      obtain ⟨x, hx, hpx⟩ := h
      rcases List.mem_cons.mp hx with rfl | hx'
      · rw [hp] at hpx; cases hpx
      · simp [List.takeWhile_cons, hp, ih l₂ ⟨x, hx', hpx⟩]

theorem takeWhile_append_of_all {β : Type} (p : β → Bool) :
    ∀ (l₁ l₂ : List β), (∀ x ∈ l₁, p x = true) →
      (l₁ ++ l₂).takeWhile p = l₁ ++ l₂.takeWhile p := by
  intro l₁
  induction l₁ with
  | nil => intro l₂ _; simp
  | cons a l₁ ih =>
    intro l₂ h
    have ha : p a = true := h a (List.mem_cons_self a l₁)
    simp [List.takeWhile_cons, ha,
      ih l₂ (fun x hx => h x (List.mem_cons_of_mem a hx))]

theorem takeWhile_eq_self_of_all {β : Type} (p : β → Bool) (l : List β)
    (h : ∀ x ∈ l, p x = true) : l.takeWhile p = l := by
  have := takeWhile_append_of_all p l [] h
  simpa using this

theorem splitAux_ne_nil (sep : Char) :
    ∀ (s acc : List Char), splitAux sep acc s ≠ [] := by
  intro s
  induction s with
  | nil => intro acc; simp [splitAux]
  | cons c rest ih =>
    intro acc
    by_cases hc : c = sep
    · simp [splitAux, hc]
    · simpa [splitAux, hc] using ih (c :: acc)

theorem getLastD_irrel {β : Type} :
    ∀ (l : List β), l ≠ [] → ∀ (d d' : β), l.getLastD d = l.getLastD d' := by
  intro l h d d'
  cases l with
  | nil => cases h rfl
  | cons a l => rw [List.getLastD_cons, List.getLastD_cons]

/-- The last element of Python's `s.split(sep)` is the suffix of `s` after
the final occurrence of `sep`, or all of `s` (preceded by the pending chunk
`acc`) when `sep` does not occur. -/
theorem getLastD_splitAux (sep : Char) :
    ∀ (s acc : List Char),
      (splitAux sep acc s).getLastD []
        = if sep ∈ s then (s.reverse.takeWhile (fun c => c ≠ sep)).reverse
          else acc.reverse ++ s := by
  intro s
  induction s with
  | nil => intro acc; simp [splitAux]
  | cons c rest ih =>
    intro acc
    by_cases hc : c = sep
    · subst hc
      rw [splitAux, if_pos rfl]
      rw [List.getLastD_cons,
        getLastD_irrel (splitAux c [] rest) (splitAux_ne_nil c rest [])
          acc.reverse [],
        ih []]
      rw [if_pos (List.mem_cons_self c rest), List.reverse_cons]
      by_cases hm : c ∈ rest
      · rw [if_pos hm,
          takeWhile_append_of_mem_not _ _ _
            ⟨c, List.mem_reverse.mpr hm, by simp⟩]
      · rw [if_neg hm,
          takeWhile_append_of_all _ _ _
            (fun x hx => by
              have hxr : x ∈ rest := List.mem_reverse.mp hx
              simp [show x ≠ c from fun he => hm (he ▸ hxr)])]
        simp
    · simp only [splitAux, if_neg hc]
      rw [ih (c :: acc)]
      have hside : (sep ∈ c :: rest) ↔ sep ∈ rest := by
        constructor
        · intro hx
          rcases List.mem_cons.mp hx with he | hx'
          · cases hc he.symm
          · exact hx'
        · exact fun hx => List.mem_cons_of_mem c hx
      by_cases hm : sep ∈ rest
      · rw [if_pos hm, if_pos (hside.mpr hm), List.reverse_cons,
          takeWhile_append_of_mem_not _ _ _
            ⟨sep, List.mem_reverse.mpr hm, by simp⟩]
      · rw [if_neg hm, if_neg (fun hx => hm (hside.mp hx))]
        simp

/-- Python's `url.split('/')[-1]` is exactly the substring after the final
`'/'` (the whole string when it contains no `'/'`). -/
theorem lastSegment_eq_specLastSegment :
    ∀ s : String, lastSegment s = specLastSegment s := by
  intro s
  simp only [lastSegment, specLastSegment, pySplit]
  congr 1
  rw [getLastD_splitAux '/' s.data []]
  by_cases hm : ('/' : Char) ∈ s.data
  · rw [if_pos hm]
  · rw [if_neg hm,
      takeWhile_eq_self_of_all _ _
        (fun x hx => by
          have hxs : x ∈ s.data := List.mem_reverse.mp hx
          simp [show x ≠ '/' from fun he => hm (he ▸ hxs)])]
    simp

/-- C7: every artifact's name is derived deterministically from the item
identifier and the (abstracted) current date as
`mobilesentrix_<last-path-segment>_<date>.json`, and the last path segment —
computed by the source as `url.split('/')[-1]` — is exactly the substring
after the final `'/'`, or the whole identifier when it contains no `'/'`. -/
theorem artifact_name_spec {α : Type} (today : String) (strOf : α → String)
    (env : ItemEnv α) (url : String)
    (h : producesArtifact today strOf env url = true) :
    ((processItem today strOf env url).1).map Prod.fst
        = some ("mobilesentrix_" ++ lastSegment url ++ "_" ++ today ++ ".json")
    ∧ ∀ s : String, lastSegment s = specLastSegment s := by
  refine ⟨?_, lastSegment_eq_specLastSegment⟩
  simp only [producesArtifact, processItem] at h ⊢
  cases hr : (scrape_with_retry url env.attempts 3 5).1 with
  | ok r =>
    cases hp : env.persistError with
    | none => simp [hr, hp, mkFilename]
    | some pe => rw [hr, hp] at h; simp at h
  | err e => rw [hr] at h; simp at h
  | implicitNone =>
    cases hp : env.persistError with
    | none => simp [hr, hp, mkFilename]
    | some pe => rw [hr, hp] at h; simp at h

/-- Witness for C7 on an identifier with a path separator. -/
theorem artifact_name_spec_witness :
    ((processItem "20260101" constStr okEnv "x/Tablets").1).map Prod.fst
      = some ("mobilesentrix_" ++ lastSegment "x/Tablets" ++ "_" ++ "20260101"
          ++ ".json") :=
  (artifact_name_spec "20260101" constStr okEnv "x/Tablets" (by decide)).1

end Mspider
